import Mathlib

/-!
Verification of the advert sender of `rs/p2p/consensus_manager/src/sender.rs`:
the slot manager, the event loop (`start_event_loop`, `handle_send_advert`,
`handle_purge_advert`), the per-artifact broadcast task
(`send_advert_to_all_peers`) and the per-peer retry send
(`send_advert_to_peer`), embedded as pure Lean functions.

Opaque identifiers from the source (`NodeId`, `ConnId`, `Artifact::Id`,
`SlotNumber`, `CommitId`) are embedded as `Nat`; Rust `HashMap`s are embedded
as association lists whose keys stay unique by construction, and `Vec` stacks
as Lean lists whose head is the `Vec`'s last element (`push` = cons,
`pop` = head).
-/

namespace Sender

abbrev SlotNumber := Nat
abbrev CommitId := Nat
abbrev NodeId := Nat
abbrev ConnId := Nat
abbrev ArtifactId := Nat

/-- `const ENABLE_ARTIFACT_PUSH: bool = false;` (sender.rs line 22). -/
def ENABLE_ARTIFACT_PUSH : Bool := false

/-- `const ARTIFACT_PUSH_THRESHOLD: usize = 5 * 1024;` (sender.rs line 24). -/
def ARTIFACT_PUSH_THRESHOLD : Nat := 5 * 1024

/-- `const MAX_ELAPSED_TIME: Duration = Duration::from_secs(60 * 5);`
(sender.rs line 36), in milliseconds. -/
def MAX_ELAPSED_TIME : Nat := 60 * 5 * 1000

/-- `const SLOT_TABLE_THRESHOLD: u64 = 30_000;` (sender.rs line 39). -/
def SLOT_TABLE_THRESHOLD : Nat := 30000

/-- `struct SlotManager` (sender.rs lines 279-284); the metrics handles and the
logger are process-wide observability plumbing and carry no algorithmic state.
`free_slots : Vec<SlotNumber>` is embedded with the head of the list as the
top of the `Vec` stack. -/
structure SlotManager where
  next_free_slot : SlotNumber
  free_slots : List SlotNumber
  deriving Repr, DecidableEq

/-- `SlotManager::new` (sender.rs lines 287-294). -/
def SlotManager.new : SlotManager :=
  { next_free_slot := 0, free_slots := [] }

/-- `SlotManager::give_slot` (sender.rs lines 296-299): pushes the slot onto
the free pool (and decrements a gauge metric, not modelled). -/
def SlotManager.give_slot (m : SlotManager) (slot : SlotNumber) : SlotManager :=
  { m with free_slots := slot :: m.free_slots }

/-- `SlotManager::take_free_slot` (sender.rs lines 301-321): pops the free
pool if non-empty, otherwise hands out the high-water mark `next_free_slot`
and increments it. The warning at `SLOT_TABLE_THRESHOLD` and the metric
increments are observability only and change no algorithmic state. -/
def SlotManager.take_free_slot (m : SlotManager) : SlotNumber × SlotManager :=
  match m.free_slots with
  | slot :: rest => (slot, { m with free_slots := rest })
  | [] => (m.next_free_slot,
           { m with next_free_slot := m.next_free_slot + 1 })

/-- The part of `Advert<Artifact>` the sender reads: the artifact identity and
the declared size in bytes (`advert.id`, `advert.size`). -/
structure AdvertInfo where
  id : ArtifactId
  size : Nat
  deriving Repr, DecidableEq

/-- `ArtifactProcessorEvent`: the events consumed by the event loop. -/
inductive Event where
  | advert (a : AdvertInfo)
  | purge (id : ArtifactId)
  deriving Repr, DecidableEq

/-- The mutable state of `ConsensusManagerSender` (sender.rs lines 54-65),
restricted to its algorithmic fields. `active_adverts :
HashMap<Artifact::Id, (JoinHandle<()>, SlotNumber)>` is embedded as an
association list of `(id, (task handle, slot))`; the `JoinHandle` of a spawned
broadcast task is embedded as a serial number drawn from `next_task_handle`,
and `aborted_tasks` records the handles on which `.abort()` was called. The
four metric counters touched by `handle_send_advert` / `handle_purge_advert`
are carried because the spec's claims mention them. -/
structure SenderState where
  slot_manager : SlotManager
  current_commit_id : CommitId
  active_adverts : List (ArtifactId × Nat × SlotNumber)
  next_task_handle : Nat
  aborted_tasks : List Nat
  new_adverts_total : Nat
  dup_adverts_total : Nat
  purge_active_total : Nat
  dup_purge_total : Nat
  deriving Repr, DecidableEq

/-- The initial sender state built by `ConsensusManagerSender::run`
(sender.rs lines 83-95): fresh slot manager, commit id 0, empty map. -/
def SenderState.init : SenderState :=
  { slot_manager := SlotManager.new
    current_commit_id := 0
    active_adverts := []
    next_task_handle := 0
    aborted_tasks := []
    new_adverts_total := 0
    dup_adverts_total := 0
    purge_active_total := 0
    dup_purge_total := 0 }

/-- `handle_purge_advert` (sender.rs lines 127-136): if the identity has an
active record, remove it, abort its task, and return its slot via
`give_slot`; otherwise only bump the duplicate-purge counter. -/
def handle_purge_advert (s : SenderState) (id : ArtifactId) : SenderState :=
  match s.active_adverts.lookup id with
  | some (task, free_slot) =>
      { s with
        active_adverts := s.active_adverts.filter (fun e => e.1 ≠ id)
        purge_active_total := s.purge_active_total + 1
        aborted_tasks := task :: s.aborted_tasks
        slot_manager := s.slot_manager.give_slot free_slot }
  | none =>
      { s with dup_purge_total := s.dup_purge_total + 1 }

/-- `handle_send_advert` (sender.rs lines 138-161): on a vacant entry, take a
slot, spawn a broadcast task, and record `(handle, slot)`; on an occupied
entry, only bump the duplicate-advert counter. -/
def handle_send_advert (s : SenderState) (advert : AdvertInfo) : SenderState :=
  match s.active_adverts.lookup advert.id with
  | some _ =>
      { s with dup_adverts_total := s.dup_adverts_total + 1 }
  | none =>
      let taken := s.slot_manager.take_free_slot
      { s with
        new_adverts_total := s.new_adverts_total + 1
        slot_manager := taken.2
        active_adverts := (advert.id, s.next_task_handle, taken.1) :: s.active_adverts
        next_task_handle := s.next_task_handle + 1 }

/-- One iteration of the `while let` event loop (sender.rs lines 115-124):
dispatch the event, then `current_commit_id.inc_assign()`. -/
def event_step (s : SenderState) (e : Event) : SenderState :=
  let s' := match e with
    | .advert a => handle_send_advert s a
    | .purge id => handle_purge_advert s id
  { s' with current_commit_id := s'.current_commit_id + 1 }

/-- One iteration of the startup-replay loop (sender.rs lines 110-113): each
artifact found in the validated pool is turned into an advert and handled by
`handle_send_advert`, with no commit-id increment. -/
def replay_step (s : SenderState) (a : AdvertInfo) : SenderState :=
  handle_send_advert s a

/-- `start_event_loop` (sender.rs lines 100-125) run to completion on a
startup-replay list and a finite event stream. -/
def start_event_loop (replayed : List AdvertInfo) (events : List Event) :
    SenderState :=
  events.foldl event_step (replayed.foldl replay_step SenderState.init)

/-! ## Broadcast task: payload selection (sender.rs lines 180-201) -/

/-- `Data` from the crate root: the wire payload carries either the full
artifact bytes or the advert. Artifact bytes are embedded as `Nat`. -/
inductive Data where
  | artifactData (artifact : Nat)
  | advertData (advert : AdvertInfo)
  deriving Repr, DecidableEq

/-- Payload selection at the start of `send_advert_to_all_peers` (sender.rs
lines 180-201), parameterized over the push-enablement flag (the source
instantiates it with the constant `ENABLE_ARTIFACT_PUSH`) and over the storage
capability `get_validated_by_identifier`, embedded as `pool_get`. -/
def select_data (enable_push : Bool) (advert : AdvertInfo)
    (pool_get : ArtifactId → Option Nat) : Data :=
  let push_artifact := enable_push && decide (advert.size ≤ ARTIFACT_PUSH_THRESHOLD)
  if push_artifact then
    match pool_get advert.id with
    | some artifact => Data.artifactData artifact
    | none => Data.advertData advert
  else
    Data.advertData advert

/-! ## Broadcast task: reconciliation loop (sender.rs lines 213-249) -/

/-- The per-artifact broadcast task state: `in_progress_transmissions :
JoinMap<NodeId, ConnId>`, embedded as an association list from peer to the
connection id its in-flight transmitter was given, and
`completed_transmissions : HashMap<NodeId, ConnId>`, the connection id of the
last successful transmission to each peer. -/
structure BroadcastState where
  in_progress_transmissions : List (NodeId × ConnId)
  completed_transmissions : List (NodeId × ConnId)
  deriving Repr, DecidableEq

/-- The broadcast task starts with no in-flight and no completed
transmissions (sender.rs lines 213-215). -/
def BroadcastState.init : BroadcastState :=
  { in_progress_transmissions := [], completed_transmissions := [] }

/-- Modelled from the spec: `JoinMap::spawn_on` of `ic_async_utils` is not
under the provided sources (only this caller is). The spec states that a
peer transmitter is spawned only when "no transmission for that peer is
already in flight" and keeps "at most one in-flight attempt per peer", so
spawning on a key that is already present leaves the map unchanged. -/
def spawn_on (m : List (NodeId × ConnId)) (peer : NodeId) (conn : ConnId) :
    List (NodeId × ConnId) :=
  if (m.lookup peer).isSome then m else (peer, conn) :: m

/-- `completed_transmissions.get(&peer).is_some_and(|c| *c == connection_id)`
(sender.rs line 225). -/
def is_completed (completed : List (NodeId × ConnId)) (peer : NodeId)
    (connection_id : ConnId) : Bool :=
  match completed.lookup peer with
  | some c => c == connection_id
  | none => false

/-- The body of the `for (peer, connection_id) in transport.peers()` loop
(sender.rs lines 224-232) for one peer: when the peer is not recorded as
completed at its current connection id, spawn a transmitter for it. -/
def tick_peer (st : BroadcastState) (pc : NodeId × ConnId) : BroadcastState :=
  if is_completed st.completed_transmissions pc.1 pc.2 then st
  else
    { st with in_progress_transmissions :=
        spawn_on st.in_progress_transmissions pc.1 pc.2 }

/-- One `periodic_check_interval.tick()` arm of the select loop (sender.rs
lines 220-233): scan the peer set reported by the transport capability. -/
def tick_step (st : BroadcastState) (peers : List (NodeId × ConnId)) :
    BroadcastState :=
  peers.foldl tick_peer st

/-- The result handed back by `in_progress_transmissions.join_next()`
(sender.rs line 234): the transmitter's return value on success, or a
`JoinError` that either is a cancellation or carries a panic. -/
inductive JoinOutcome where
  | ok (connection_id : ConnId) (peer : NodeId)
  | errCancelled
  | errPanicked
  deriving Repr, DecidableEq

/-- The `match result` arm of the select loop (sender.rs lines 235-246),
acting on `completed_transmissions`: success records the delivered connection
id for the peer; a cancellation error is ignored; a panic is re-raised
(`std::panic::resume_unwind`), embedded as `Except.error`. The `HashMap`
insert is embedded as cons plus removal of any previous binding. -/
def harvest_completion (completed : List (NodeId × ConnId)) (r : JoinOutcome) :
    Except Unit (List (NodeId × ConnId)) :=
  match r with
  | .ok connection_id peer =>
      .ok ((peer, connection_id) :: completed.filter (fun e => e.1 ≠ peer))
  | .errCancelled => .ok completed
  | .errPanicked => .error ()

/-- One observable step of the broadcast task's select loop: either a periodic
tick with the peer set the transport reports at that instant, or the harvest
of one finished transmitter. A harvested task (successful or not) leaves the
`JoinMap`; a panic would abort the whole task, so the trace semantics below
only extends along non-panicking steps. -/
inductive TaskStep where
  | tick (peers : List (NodeId × ConnId))
  | harvestOk (connection_id : ConnId) (peer : NodeId)
  | harvestCancelled (peer : NodeId)
  deriving Repr, DecidableEq

/-- The transition function of the broadcast task over `TaskStep`s. -/
def task_step (st : BroadcastState) (s : TaskStep) : BroadcastState :=
  match s with
  | .tick peers => tick_step st peers
  | .harvestOk connection_id peer =>
      { in_progress_transmissions :=
          st.in_progress_transmissions.filter (fun e => e.1 ≠ peer)
        completed_transmissions :=
          (peer, connection_id) ::
            st.completed_transmissions.filter (fun e => e.1 ≠ peer) }
  | .harvestCancelled peer =>
      { st with in_progress_transmissions :=
          st.in_progress_transmissions.filter (fun e => e.1 ≠ peer) }

/-- The broadcast task run from its initial state along a list of steps. -/
def run_task (steps : List TaskStep) : BroadcastState :=
  steps.foldl task_step BroadcastState.init

/-! ## Peer transmitter (sender.rs lines 255-277) -/

/-- `send_advert_to_peer` (sender.rs lines 255-277), with the transport
capability embedded as `push : Nat → Bool` giving the outcome of the n-th
push attempt, the remaining backoff schedule embedded as the list of
durations (in ms) that `backoff.next_backoff()` will still yield before
returning `None`, and a fuel bound on the number of attempts (the Rust loop
is unbounded). Returns `none` when the fuel runs out, otherwise the returned
connection id together with the list of sleep durations performed. Each
failed attempt sleeps `backoff.next_backoff().unwrap_or(MAX_ELAPSED_TIME)`. -/
def send_advert_to_peer (push : Nat → Bool) (connection_id : ConnId)
    (schedule : List Nat) (attempt : Nat) (fuel : Nat) :
    Option (ConnId × List Nat) :=
  match fuel with
  | 0 => none
  | fuel + 1 =>
    if push attempt then some (connection_id, [])
    else
      let next := match schedule with
        | d :: rest => (d, rest)
        | [] => (MAX_ELAPSED_TIME, [])
      match send_advert_to_peer push connection_id next.2 (attempt + 1) fuel with
      | some (c, sleeps) => some (c, next.1 :: sleeps)
      | none => none

/-! ## Association-list helper lemmas -/

theorem lookup_eq_none_iff {β : Type} (l : List (Nat × β)) (k : Nat) :
    l.lookup k = none ↔ k ∉ l.map Prod.fst := by
  induction l with
  | nil => simp [List.lookup]
  | cons a t ih =>
    obtain ⟨a1, a2⟩ := a
    by_cases h : k = a1
    · subst h; simp [List.lookup]
    · have hb : (k == a1) = false := by simp [h]
      simp only [List.lookup, hb, List.map_cons, List.mem_cons, not_or, ih]
      exact ⟨fun hn => ⟨h, hn⟩, fun hn => hn.2⟩

theorem lookup_isSome_iff {β : Type} (l : List (Nat × β)) (k : Nat) :
    (l.lookup k).isSome ↔ k ∈ l.map Prod.fst := by
  rw [← not_iff_not, ← lookup_eq_none_iff]
  cases h : l.lookup k <;> simp

theorem lookup_cons_of_ne {β : Type} {q k : Nat} (v : β) (l : List (Nat × β))
    (h : q ≠ k) : ((q, v) :: l).lookup k = l.lookup k := by
  have hb : (k == q) = false := by simp [Ne.symm h]
  simp [List.lookup, hb]

theorem keys_nodup_of_filter {β : Type} {l : List (Nat × β)} (p : Nat × β → Bool)
    (h : (l.map Prod.fst).Nodup) : ((l.filter p).map Prod.fst).Nodup :=
  ((l.filter_sublist (p := p)).map Prod.fst).nodup h

/-! ## Event-loop helper lemmas -/

theorem handle_send_advert_commit (s : SenderState) (a : AdvertInfo) :
    (handle_send_advert s a).current_commit_id = s.current_commit_id := by
  unfold handle_send_advert
  cases s.active_adverts.lookup a.id <;> rfl

theorem handle_purge_advert_commit (s : SenderState) (id : ArtifactId) :
    (handle_purge_advert s id).current_commit_id = s.current_commit_id := by
  unfold handle_purge_advert
  cases h : s.active_adverts.lookup id with
  | none => rfl
  | some v => obtain ⟨t, sl⟩ := v; rfl

theorem event_step_commit (s : SenderState) (e : Event) :
    (event_step s e).current_commit_id = s.current_commit_id + 1 := by
  unfold event_step
  cases e with
  | advert a => simp [handle_send_advert_commit]
  | purge id => simp [handle_purge_advert_commit]

theorem foldl_event_commit (events : List Event) (s : SenderState) :
    (events.foldl event_step s).current_commit_id =
      s.current_commit_id + events.length := by
  induction events generalizing s with
  | nil => simp
  | cons e t ih =>
    rw [List.foldl_cons, ih, event_step_commit, List.length_cons]
    ring

theorem foldl_replay_commit (replayed : List AdvertInfo) (s : SenderState) :
    (replayed.foldl replay_step s).current_commit_id = s.current_commit_id := by
  induction replayed generalizing s with
  | nil => rfl
  | cons a t ih =>
    rw [List.foldl_cons, ih, replay_step, handle_send_advert_commit]

theorem handle_send_advert_of_lookup_some (s : SenderState) (a : AdvertInfo)
    (v : Nat × SlotNumber) (hl : s.active_adverts.lookup a.id = some v) :
    handle_send_advert s a =
      { s with dup_adverts_total := s.dup_adverts_total + 1 } := by
  unfold handle_send_advert
  rw [hl]

theorem handle_send_advert_of_lookup_none (s : SenderState) (a : AdvertInfo)
    (hl : s.active_adverts.lookup a.id = none) :
    handle_send_advert s a =
      { s with
        new_adverts_total := s.new_adverts_total + 1
        slot_manager := s.slot_manager.take_free_slot.2
        active_adverts :=
          (a.id, s.next_task_handle, s.slot_manager.take_free_slot.1) ::
            s.active_adverts
        next_task_handle := s.next_task_handle + 1 } := by
  unfold handle_send_advert
  rw [hl]

theorem handle_purge_advert_of_lookup_some (s : SenderState) (id : ArtifactId)
    (task slot : Nat) (hl : s.active_adverts.lookup id = some (task, slot)) :
    handle_purge_advert s id =
      { s with
        active_adverts := s.active_adverts.filter (fun e => e.1 ≠ id)
        purge_active_total := s.purge_active_total + 1
        aborted_tasks := task :: s.aborted_tasks
        slot_manager := s.slot_manager.give_slot slot } := by
  unfold handle_purge_advert
  rw [hl]

theorem handle_purge_advert_of_lookup_none (s : SenderState) (id : ArtifactId)
    (hl : s.active_adverts.lookup id = none) :
    handle_purge_advert s id =
      { s with dup_purge_total := s.dup_purge_total + 1 } := by
  unfold handle_purge_advert
  rw [hl]

theorem handle_send_advert_keys_nodup (s : SenderState) (a : AdvertInfo)
    (h : (s.active_adverts.map Prod.fst).Nodup) :
    ((handle_send_advert s a).active_adverts.map Prod.fst).Nodup := by
  cases hl : s.active_adverts.lookup a.id with
  | some v => rw [handle_send_advert_of_lookup_some s a v hl]; exact h
  | none =>
    rw [handle_send_advert_of_lookup_none s a hl]
    simp only [List.map_cons, List.nodup_cons]
    exact ⟨fun hm => ((lookup_eq_none_iff _ _).mp hl) hm, h⟩

theorem handle_purge_advert_keys_nodup (s : SenderState) (id : ArtifactId)
    (h : (s.active_adverts.map Prod.fst).Nodup) :
    ((handle_purge_advert s id).active_adverts.map Prod.fst).Nodup := by
  cases hl : s.active_adverts.lookup id with
  | none => rw [handle_purge_advert_of_lookup_none s id hl]; exact h
  | some v =>
    obtain ⟨t, sl⟩ := v
    rw [handle_purge_advert_of_lookup_some s id t sl hl]
    exact keys_nodup_of_filter _ h

theorem event_step_keys_nodup (s : SenderState) (e : Event)
    (h : (s.active_adverts.map Prod.fst).Nodup) :
    ((event_step s e).active_adverts.map Prod.fst).Nodup := by
  cases e with
  | advert a => exact handle_send_advert_keys_nodup s a h
  | purge id => exact handle_purge_advert_keys_nodup s id h

theorem foldl_event_keys_nodup (events : List Event) (s : SenderState)
    (h : (s.active_adverts.map Prod.fst).Nodup) :
    (((events.foldl event_step s).active_adverts.map Prod.fst)).Nodup := by
  induction events generalizing s with
  | nil => exact h
  | cons e t ih => exact ih _ (event_step_keys_nodup s e h)

theorem foldl_replay_keys_nodup (replayed : List AdvertInfo) (s : SenderState)
    (h : (s.active_adverts.map Prod.fst).Nodup) :
    (((replayed.foldl replay_step s).active_adverts.map Prod.fst)).Nodup := by
  induction replayed generalizing s with
  | nil => exact h
  | cons a t ih => exact ih _ (handle_send_advert_keys_nodup s a h)

/-! ## Claim theorems for the slot manager and the event loop -/

/-- C3: `take_free_slot` pops the most recently freed slot when the free pool
is non-empty and only when it is empty returns the high-water mark and
increments it; on a fresh manager three consecutive calls return 0, 1, 2; and
`give_slot s` immediately followed by `take_free_slot` returns `s` (restoring
the manager's previous state). -/
theorem slot_manager_allocation_order (m : SlotManager) (s : SlotNumber) :
    m.take_free_slot.1 = m.free_slots.headD m.next_free_slot ∧
    m.take_free_slot.2.next_free_slot =
      (if m.free_slots.isEmpty then m.next_free_slot + 1 else m.next_free_slot) ∧
    m.take_free_slot.2.free_slots = m.free_slots.tail ∧
    (m.give_slot s).take_free_slot = (s, m) ∧
    (SlotManager.new.take_free_slot.1 = 0 ∧
     SlotManager.new.take_free_slot.2.take_free_slot.1 = 1 ∧
     SlotManager.new.take_free_slot.2.take_free_slot.2.take_free_slot.1 = 2) := by
  obtain ⟨n, fs⟩ := m
  refine ⟨?_, ?_, ?_, ?_, by decide⟩ <;>
    cases fs <;>
      simp [SlotManager.take_free_slot, SlotManager.give_slot]

/-- C2 counterexample: replaying one artifact from the validated pool at
startup processes it (the new-advert counter becomes 1) but leaves the commit
identifier at 0, not 1 — the startup-replay loop calls `handle_send_advert`
without the `inc_assign` performed for stream events. -/
theorem commit_id_replay_counterexample :
    (start_event_loop [⟨0, 0⟩] []).new_adverts_total = 1 ∧
    (start_event_loop [⟨0, 0⟩] []).current_commit_id = 0 := by
  decide

/-- C2 (amended): the event loop increments the commit identifier by exactly 1
for each event received from the event stream, while the Advert events
synthesized from the validated pool during startup replay do not touch it:
after the loop the commit identifier equals the number of stream events, for
every replay list. -/
theorem commit_id_increment_per_stream_event (replayed : List AdvertInfo)
    (events : List Event) :
    (start_event_loop replayed events).current_commit_id = events.length := by
  unfold start_event_loop
  rw [foldl_event_commit, foldl_replay_commit]
  simp [SenderState.init]

/-- C9: starting from commit identifier 0, processing 3 Advert events with
distinct identities followed by 1 Purge event for the first identity leaves
the commit identifier at 4 and the active-advert map with exactly 2
entries. -/
theorem scenario_three_adverts_one_purge :
    (start_event_loop []
        [.advert ⟨0, 10⟩, .advert ⟨1, 10⟩, .advert ⟨2, 10⟩, .purge 0]
      ).current_commit_id = 4 ∧
    (start_event_loop []
        [.advert ⟨0, 10⟩, .advert ⟨1, 10⟩, .advert ⟨2, 10⟩, .purge 0]
      ).active_adverts.length = 2 := by
  decide

/-- C4: purging an identity with an active-advert record removes the record,
aborts exactly the task whose handle the record stores, and pushes exactly the
recorded slot onto the free pool once, leaving the high-water mark unchanged;
purging an unknown identity changes neither the map, nor the slot manager,
nor the aborted tasks, and only bumps the duplicate-purge counter. -/
theorem purge_advert_behavior (s : SenderState) (id : ArtifactId)
    (task slot : Nat) :
    (s.active_adverts.lookup id = some (task, slot) →
      (handle_purge_advert s id).active_adverts =
        s.active_adverts.filter (fun e => e.1 ≠ id) ∧
      (handle_purge_advert s id).aborted_tasks = task :: s.aborted_tasks ∧
      (handle_purge_advert s id).slot_manager.free_slots =
        slot :: s.slot_manager.free_slots ∧
      (handle_purge_advert s id).slot_manager.next_free_slot =
        s.slot_manager.next_free_slot ∧
      (handle_purge_advert s id).purge_active_total =
        s.purge_active_total + 1) ∧
    (s.active_adverts.lookup id = none →
      (handle_purge_advert s id).active_adverts = s.active_adverts ∧
      (handle_purge_advert s id).slot_manager = s.slot_manager ∧
      (handle_purge_advert s id).aborted_tasks = s.aborted_tasks ∧
      (handle_purge_advert s id).dup_purge_total = s.dup_purge_total + 1) := by
  constructor
  · intro hl
    rw [handle_purge_advert_of_lookup_some s id task slot hl]
    exact ⟨rfl, rfl, rfl, rfl, rfl⟩
  · intro hl
    rw [handle_purge_advert_of_lookup_none s id hl]
    exact ⟨rfl, rfl, rfl, rfl⟩

/-- Witness for C4 at a concrete state: a record `(5 ↦ (task 0, slot 9))` is
purged, returning slot 9; purging identity 5 on the empty map is a no-op. -/
theorem purge_advert_behavior_witness :
    (handle_purge_advert
        { SenderState.init with active_adverts := [(5, 0, 9)] } 5
      ).slot_manager.free_slots = [9] ∧
    (handle_purge_advert SenderState.init 5).active_adverts = [] := by
  constructor
  · exact ((purge_advert_behavior
      { SenderState.init with active_adverts := [(5, 0, 9)] } 5 0 9).1
        (by decide)).2.2.1
  · exact ((purge_advert_behavior SenderState.init 5 0 0).2 (by decide)).1

/-- C6: over every event sequence (with any startup replay) the active-advert
map holds at most one record per artifact identity, and handling an Advert
whose identity is already active spawns no task, allocates no slot, leaves
the map and the slot manager unchanged, and only bumps the duplicate-advert
counter. -/
theorem dedup_invariant (replayed : List AdvertInfo) (events : List Event)
    (s : SenderState) (a : AdvertInfo) :
    ((start_event_loop replayed events).active_adverts.map Prod.fst).Nodup ∧
    ((s.active_adverts.lookup a.id).isSome →
      (handle_send_advert s a).active_adverts = s.active_adverts ∧
      (handle_send_advert s a).slot_manager = s.slot_manager ∧
      (handle_send_advert s a).next_task_handle = s.next_task_handle ∧
      (handle_send_advert s a).dup_adverts_total = s.dup_adverts_total + 1) := by
  constructor
  · exact foldl_event_keys_nodup _ _
      (foldl_replay_keys_nodup _ _ (by simp [SenderState.init]))
  · intro hs
    obtain ⟨v, hv⟩ := Option.isSome_iff_exists.mp hs
    rw [handle_send_advert_of_lookup_some s a v hv]
    exact ⟨rfl, rfl, rfl, rfl⟩

/-- Witness for C6 at a concrete state: a duplicate Advert for the already
active identity 5 leaves the map unchanged. -/
theorem dedup_invariant_witness :
    (handle_send_advert
        { SenderState.init with active_adverts := [(5, 0, 9)] } ⟨5, 10⟩
      ).active_adverts = [(5, 0, 9)] := by
  exact ((dedup_invariant [] []
    { SenderState.init with active_adverts := [(5, 0, 9)] } ⟨5, 10⟩).2
      (by decide)).1

/-- C5: the wire message carries the full artifact payload iff the
push-enablement flag is set, the declared size is at most 5120 bytes, and the
artifact is found in storage by its identity; in every other case it carries
only the advert. -/
theorem payload_selection (flag : Bool) (advert : AdvertInfo)
    (pool_get : ArtifactId → Option Nat) :
    (∀ artifact : Nat,
      select_data flag advert pool_get = Data.artifactData artifact ↔
        (flag = true ∧ advert.size ≤ 5120 ∧ pool_get advert.id = some artifact)) ∧
    (select_data flag advert pool_get = Data.advertData advert ↔
      ¬(flag = true ∧ advert.size ≤ 5120 ∧ (pool_get advert.id).isSome)) := by
  have hthr : ARTIFACT_PUSH_THRESHOLD = 5120 := by
    norm_num [ARTIFACT_PUSH_THRESHOLD]
  by_cases hf : flag = true
  · by_cases hsz : advert.size ≤ 5120
    · cases hp : pool_get advert.id with
      | some art =>
        constructor
        · intro artifact
          simp [select_data, hf, hthr, hsz, hp, eq_comm]
        · simp [select_data, hf, hthr, hsz, hp]
      | none =>
        constructor
        · intro artifact
          simp [select_data, hf, hthr, hsz, hp]
        · simp [select_data, hf, hthr, hsz, hp]
    · constructor
      · intro artifact
        simp [select_data, hf, hthr, hsz]
      · simp [select_data, hf, hthr, hsz]
  · have hf' : flag = false := by
      cases flag
      · rfl
      · exact absurd rfl hf
    constructor
    · intro artifact
      simp [select_data, hf', hthr]
    · simp [select_data, hf', hthr]

/-- Witness for C5 at concrete inputs: with the flag set, a 100-byte artifact
found in storage is pushed in full; with the flag cleared it is not. -/
theorem payload_selection_witness :
    select_data true ⟨0, 100⟩ (fun _ => some 42) = Data.artifactData 42 ∧
    select_data false ⟨0, 100⟩ (fun _ => some 42) = Data.advertData ⟨0, 100⟩ := by
  constructor
  · exact ((payload_selection true ⟨0, 100⟩ (fun _ => some 42)).1 42).mpr
      ⟨rfl, by norm_num, rfl⟩
  · exact (payload_selection false ⟨0, 100⟩ (fun _ => some 42)).2.mpr
      (by simp)

/-- C10: the push-enablement flag is the compile-time constant `false`, so the
wire message built by the broadcast task always carries only the advert,
whatever the artifact's size or presence in storage. -/
theorem artifact_push_disabled (advert : AdvertInfo)
    (pool_get : ArtifactId → Option Nat) :
    ENABLE_ARTIFACT_PUSH = false ∧
    select_data ENABLE_ARTIFACT_PUSH advert pool_get =
      Data.advertData advert := by
  exact ⟨rfl, rfl⟩

/-- C8: harvesting a completed per-peer transmission records the delivered
connection id for the peer on success, ignores a cancellation with no change
to the delivery state, and re-raises a panic instead of swallowing it. -/
theorem harvest_completion_behavior (completed : List (NodeId × ConnId))
    (connection_id : ConnId) (peer : NodeId) :
    (∃ m, harvest_completion completed (.ok connection_id peer) = .ok m ∧
      m.lookup peer = some connection_id) ∧
    harvest_completion completed .errCancelled = .ok completed ∧
    harvest_completion completed .errPanicked = .error () := by
  refine ⟨⟨_, rfl, ?_⟩, rfl, rfl⟩
  simp [List.lookup]

/-! ## Broadcast-task reconciliation lemmas -/

theorem tick_step_nil (st : BroadcastState) : tick_step st [] = st := rfl

theorem tick_step_cons (st : BroadcastState) (pc : NodeId × ConnId)
    (tl : List (NodeId × ConnId)) :
    tick_step st (pc :: tl) = tick_step (tick_peer st pc) tl := rfl

theorem tick_peer_completed (st : BroadcastState) (pc : NodeId × ConnId) :
    (tick_peer st pc).completed_transmissions = st.completed_transmissions := by
  unfold tick_peer
  split <;> rfl

theorem tick_step_completed (peers : List (NodeId × ConnId))
    (st : BroadcastState) :
    (tick_step st peers).completed_transmissions =
      st.completed_transmissions := by
  induction peers generalizing st with
  | nil => rfl
  | cons pc tl ih =>
    rw [tick_step_cons, ih, tick_peer_completed]

theorem tick_peer_lookup_ne (st : BroadcastState) (q : NodeId) (c' : ConnId)
    (p : NodeId) (h : q ≠ p) :
    (tick_peer st (q, c')).in_progress_transmissions.lookup p =
      st.in_progress_transmissions.lookup p := by
  unfold tick_peer spawn_on
  split
  · rfl
  · simp only
    split
    · rfl
    · exact lookup_cons_of_ne c' _ h

theorem tick_step_lookup_not_mem (peers : List (NodeId × ConnId))
    (st : BroadcastState) (p : NodeId) (h : p ∉ peers.map Prod.fst) :
    (tick_step st peers).in_progress_transmissions.lookup p =
      st.in_progress_transmissions.lookup p := by
  induction peers generalizing st with
  | nil => rfl
  | cons pc tl ih =>
    obtain ⟨q, c'⟩ := pc
    simp only [List.map_cons, List.mem_cons, not_or] at h
    rw [tick_step_cons, ih _ h.2, tick_peer_lookup_ne st q c' p
      (fun he => h.1 he.symm)]

theorem is_completed_iff (completed : List (NodeId × ConnId)) (p : NodeId)
    (c : ConnId) :
    is_completed completed p c = true ↔ completed.lookup p = some c := by
  unfold is_completed
  cases h : completed.lookup p with
  | none => simp
  | some c0 => simp [beq_iff_eq]

theorem tick_step_lookup_spawn (peers : List (NodeId × ConnId))
    (st : BroadcastState) (p : NodeId) (c : ConnId)
    (hnd : (peers.map Prod.fst).Nodup) (hmem : (p, c) ∈ peers)
    (hnone : st.in_progress_transmissions.lookup p = none) :
    (tick_step st peers).in_progress_transmissions.lookup p =
      (if is_completed st.completed_transmissions p c then none else some c) := by
  induction peers generalizing st with
  | nil => cases hmem
  | cons pc tl ih =>
    obtain ⟨q, c'⟩ := pc
    rcases List.mem_cons.mp hmem with heq | hmem'
    · cases heq
      have hp : p ∉ tl.map Prod.fst := by
        simp only [List.map_cons, List.nodup_cons] at hnd
        exact hnd.1
      rw [tick_step_cons, tick_step_lookup_not_mem tl _ p hp]
      unfold tick_peer
      by_cases hc : is_completed st.completed_transmissions p c
      · rw [if_pos hc, if_pos hc]
        exact hnone
      · rw [if_neg hc, if_neg hc]
        show (spawn_on st.in_progress_transmissions p c).lookup p = some c
        unfold spawn_on
        rw [if_neg (by rw [hnone]; simp)]
        simp [List.lookup]
    · have hq : q ≠ p := by
        intro he
        subst he
        simp only [List.map_cons, List.nodup_cons] at hnd
        exact hnd.1 (List.mem_map_of_mem Prod.fst hmem')
      have hnd' : (tl.map Prod.fst).Nodup := by
        simp only [List.map_cons, List.nodup_cons] at hnd
        exact hnd.2
      have hnone' :
          (tick_peer st (q, c')).in_progress_transmissions.lookup p = none := by
        rw [tick_peer_lookup_ne st q c' p hq]
        exact hnone
      rw [tick_step_cons, ih (tick_peer st (q, c')) hnd' hmem' hnone',
        tick_peer_completed]

theorem spawn_on_keys_nodup (m : List (NodeId × ConnId)) (p : NodeId)
    (c : ConnId) (h : (m.map Prod.fst).Nodup) :
    ((spawn_on m p c).map Prod.fst).Nodup := by
  unfold spawn_on
  split
  · exact h
  · rename_i hns
    have hnone : m.lookup p = none := by
      cases hl : m.lookup p with
      | none => rfl
      | some v => rw [hl] at hns; exact absurd rfl hns
    simp only [List.map_cons, List.nodup_cons]
    exact ⟨fun hm => ((lookup_eq_none_iff _ _).mp hnone) hm, h⟩

theorem tick_peer_keys_nodup (st : BroadcastState) (pc : NodeId × ConnId)
    (h : (st.in_progress_transmissions.map Prod.fst).Nodup) :
    ((tick_peer st pc).in_progress_transmissions.map Prod.fst).Nodup := by
  unfold tick_peer
  split
  · exact h
  · exact spawn_on_keys_nodup _ _ _ h

theorem tick_step_keys_nodup (peers : List (NodeId × ConnId))
    (st : BroadcastState)
    (h : (st.in_progress_transmissions.map Prod.fst).Nodup) :
    ((tick_step st peers).in_progress_transmissions.map Prod.fst).Nodup := by
  induction peers generalizing st with
  | nil => exact h
  | cons pc tl ih =>
    rw [tick_step_cons]
    exact ih _ (tick_peer_keys_nodup st pc h)

theorem task_step_keys_nodup (st : BroadcastState) (s : TaskStep)
    (h : (st.in_progress_transmissions.map Prod.fst).Nodup) :
    ((task_step st s).in_progress_transmissions.map Prod.fst).Nodup := by
  cases s with
  | tick peers => exact tick_step_keys_nodup peers st h
  | harvestOk connection_id peer => exact keys_nodup_of_filter _ h
  | harvestCancelled peer => exact keys_nodup_of_filter _ h

theorem run_task_keys_nodup_from (steps : List TaskStep) (st : BroadcastState)
    (h : (st.in_progress_transmissions.map Prod.fst).Nodup) :
    ((steps.foldl task_step st).in_progress_transmissions.map Prod.fst).Nodup := by
  induction steps generalizing st with
  | nil => exact h
  | cons s tl ih => exact ih _ (task_step_keys_nodup st s h)

/-- C1: during one periodic peer-set scan, a peer transmitter is newly
spawned for a peer reported at connection id `c` iff the peer is not recorded
as delivered at `c` (no successful delivery recorded, or recorded at a
different connection id) and no transmission for it is already in flight; and
along every execution of the broadcast task the in-flight map holds at most
one transmission per peer. -/
theorem broadcast_spawn_iff_unique_inflight (st : BroadcastState)
    (peers : List (NodeId × ConnId)) (p : NodeId) (c : ConnId)
    (steps : List TaskStep)
    (hnd : (peers.map Prod.fst).Nodup) (hmem : (p, c) ∈ peers) :
    ((((tick_step st peers).in_progress_transmissions.lookup p).isSome ∧
        st.in_progress_transmissions.lookup p = none) ↔
      (¬ st.completed_transmissions.lookup p = some c ∧
        st.in_progress_transmissions.lookup p = none)) ∧
    ((run_task steps).in_progress_transmissions.map Prod.fst).Nodup := by
  constructor
  · constructor
    · rintro ⟨hsome, hnone⟩
      refine ⟨?_, hnone⟩
      rw [tick_step_lookup_spawn peers st p c hnd hmem hnone] at hsome
      intro hlk
      rw [if_pos ((is_completed_iff _ _ _).mpr hlk)] at hsome
      simp at hsome
    · rintro ⟨hnc, hnone⟩
      refine ⟨?_, hnone⟩
      rw [tick_step_lookup_spawn peers st p c hnd hmem hnone,
        if_neg (fun hc => hnc ((is_completed_iff _ _ _).mp hc))]
      rfl
  · exact run_task_keys_nodup_from steps BroadcastState.init
      (by simp [BroadcastState.init])

/-- Witness for C1 at a concrete scan: from the initial state, the scan of a
peer set reporting peer 3 at connection 1 spawns a transmitter for it, and a
two-step run keeps at most one in-flight transmission per peer. -/
theorem broadcast_spawn_iff_unique_inflight_witness :
    (((tick_step BroadcastState.init [(3, 1)]).in_progress_transmissions.lookup
        3).isSome ∧
      BroadcastState.init.in_progress_transmissions.lookup 3 = none) ∧
    ((run_task [TaskStep.tick [(3, 1)], TaskStep.tick [(3, 1), (4, 2)]]
      ).in_progress_transmissions.map Prod.fst).Nodup := by
  have h := broadcast_spawn_iff_unique_inflight BroadcastState.init [(3, 1)]
    3 1 [TaskStep.tick [(3, 1)], TaskStep.tick [(3, 1), (4, 2)]]
    (by decide) (by decide)
  exact ⟨h.1.mpr ⟨by decide, by decide⟩, h.2⟩

/-! ## Peer-transmitter lemmas -/

theorem send_advert_to_peer_succ (push : Nat → Bool) (connection_id : ConnId)
    (schedule : List Nat) (attempt fuel : Nat) :
    send_advert_to_peer push connection_id schedule attempt (fuel + 1) =
      if push attempt then some (connection_id, [])
      else
        let next := match schedule with
          | d :: rest => (d, rest)
          | [] => (MAX_ELAPSED_TIME, [])
        match send_advert_to_peer push connection_id next.2 (attempt + 1) fuel with
        | some (c, sleeps) => some (c, next.1 :: sleeps)
        | none => none := rfl

theorem send_advert_to_peer_returns_conn (push : Nat → Bool)
    (connection_id : ConnId) :
    ∀ (fuel : Nat) (schedule : List Nat) (attempt : Nat)
      (r : ConnId × List Nat),
      send_advert_to_peer push connection_id schedule attempt fuel = some r →
        r.1 = connection_id := by
  intro fuel
  induction fuel with
  | zero =>
    intro schedule attempt r h
    exact absurd h (by simp [send_advert_to_peer])
  | succ n ih =>
    intro schedule attempt r h
    rw [send_advert_to_peer_succ] at h
    by_cases hp : push attempt
    · rw [if_pos hp] at h
      cases h
      rfl
    · rw [if_neg hp] at h
      simp only at h
      cases hrec : send_advert_to_peer push connection_id
          (match schedule with
            | d :: rest => (d, rest)
            | [] => (MAX_ELAPSED_TIME, ([] : List Nat))).2 (attempt + 1) n with
      | none => rw [hrec] at h; simp at h
      | some p =>
        obtain ⟨c, sleeps⟩ := p
        rw [hrec] at h
        simp only [Option.some.injEq] at h
        have hc := ih _ _ _ hrec
        rw [← h]
        exact hc

theorem send_advert_to_peer_eventual_success (push : Nat → Bool)
    (connection_id : ConnId) :
    ∀ (fuel : Nat) (schedule : List Nat) (attempt : Nat),
      (∃ k, k < fuel ∧ push (attempt + k) = true) →
      (send_advert_to_peer push connection_id schedule attempt fuel).isSome := by
  intro fuel
  induction fuel with
  | zero =>
    intro schedule attempt ⟨k, hk, _⟩
    exact absurd hk (Nat.not_lt_zero k)
  | succ n ih =>
    intro schedule attempt ⟨k, hk, hs⟩
    rw [send_advert_to_peer_succ]
    by_cases hp : push attempt
    · rw [if_pos hp]
      simp
    · rw [if_neg hp]
      simp only
      have hk0 : k ≠ 0 := by
        rintro rfl
        rw [Nat.add_zero] at hs
        exact hp hs
      obtain ⟨k', rfl⟩ := Nat.exists_eq_succ_of_ne_zero hk0
      have hs' : push (attempt + 1 + k') = true := by
        rw [show attempt + 1 + k' = attempt + (k' + 1) by omega]
        exact hs
      have hrec := ih (match schedule with
          | d :: rest => (d, rest)
          | [] => (MAX_ELAPSED_TIME, ([] : List Nat))).2 (attempt + 1)
        ⟨k', by omega, hs'⟩
      cases hsome : send_advert_to_peer push connection_id
          (match schedule with
            | d :: rest => (d, rest)
            | [] => (MAX_ELAPSED_TIME, ([] : List Nat))).2 (attempt + 1) n with
      | none => rw [hsome] at hrec; simp at hrec
      | some p =>
        obtain ⟨c, sleeps⟩ := p
        simp

theorem send_advert_to_peer_exhausted_sleeps (push : Nat → Bool)
    (connection_id : ConnId) :
    ∀ (fuel attempt : Nat) (r : ConnId × List Nat),
      send_advert_to_peer push connection_id [] attempt fuel = some r →
      ∀ d ∈ r.2, d = MAX_ELAPSED_TIME := by
  intro fuel
  induction fuel with
  | zero =>
    intro attempt r h
    exact absurd h (by simp [send_advert_to_peer])
  | succ n ih =>
    intro attempt r h
    rw [send_advert_to_peer_succ] at h
    by_cases hp : push attempt
    · rw [if_pos hp] at h
      cases h
      intro d hd
      simp at hd
    · rw [if_neg hp] at h
      simp only at h
      cases hrec : send_advert_to_peer push connection_id [] (attempt + 1) n with
      | none => rw [hrec] at h; simp at h
      | some p =>
        obtain ⟨c, sleeps⟩ := p
        rw [hrec] at h
        simp only [Option.some.injEq] at h
        intro d hd
        rw [← h] at hd
        rcases List.mem_cons.mp hd with hdm | hd'
        · rw [hdm]
        · exact ih (attempt + 1) (c, sleeps) hrec d hd'

/-- C7: the peer transmitter never returns an error value — whenever it
returns it returns exactly the connection identifier it was given; it keeps
retrying as long as fuel remains and terminates as soon as a push succeeds;
and with the backoff schedule exhausted every sleep between retries lasts the
configured max-elapsed-time of 5 minutes (`next_backoff().unwrap_or(
MAX_ELAPSED_TIME)`). -/
theorem send_advert_to_peer_contract (push : Nat → Bool)
    (connection_id : ConnId) (schedule : List Nat) (attempt fuel : Nat) :
    (∀ r : ConnId × List Nat,
      send_advert_to_peer push connection_id schedule attempt fuel = some r →
        r.1 = connection_id) ∧
    ((∃ k, k < fuel ∧ push (attempt + k) = true) →
      (send_advert_to_peer push connection_id schedule attempt fuel).isSome) ∧
    (∀ r : ConnId × List Nat,
      send_advert_to_peer push connection_id [] attempt fuel = some r →
        ∀ d ∈ r.2, d = MAX_ELAPSED_TIME) ∧
    MAX_ELAPSED_TIME = 5 * 60 * 1000 := by
  refine ⟨?_, ?_, ?_, by norm_num [MAX_ELAPSED_TIME]⟩
  · exact send_advert_to_peer_returns_conn push connection_id fuel schedule attempt
  · exact send_advert_to_peer_eventual_success push connection_id fuel schedule attempt
  · exact send_advert_to_peer_exhausted_sleeps push connection_id fuel attempt

/-- Witness for C7 at a concrete run: the push fails at attempt 0 and
succeeds at attempt 1 with an empty remaining schedule, so the transmitter
sleeps once for the max-elapsed-time and then returns the given connection
identifier 7. -/
theorem send_advert_to_peer_contract_witness :
    send_advert_to_peer (fun k => k == 1) 7 [] 0 3 =
      some (7, [MAX_ELAPSED_TIME]) ∧
    (send_advert_to_peer (fun k => k == 1) 7 [] 0 3).isSome ∧
    (∀ d ∈ [MAX_ELAPSED_TIME], d = MAX_ELAPSED_TIME) ∧
    ((7, [MAX_ELAPSED_TIME]) : ConnId × List Nat).1 = 7 := by
  refine ⟨by decide, ?_, ?_, ?_⟩
  · exact (send_advert_to_peer_contract (fun k => k == 1) 7 [] 0 3).2.1
      ⟨1, by decide, by decide⟩
  · intro d hd
    exact (send_advert_to_peer_contract (fun k => k == 1) 7 [] 0 3).2.2.1
      (7, [MAX_ELAPSED_TIME]) (by decide) d hd
  · exact (send_advert_to_peer_contract (fun k => k == 1) 7 [] 0 3).1
      (7, [MAX_ELAPSED_TIME]) (by decide)

end Sender
